import Mathlib

/-!
# Verification of the table-normalization pipeline of the FBI-Crime-Report app

This file gives a shallow embedding of the data-cleaning core of `src/app.py`
(`clean_colname`, `clean_dataframe`, `load_csv`, lines 120-222) and proves the
specified properties about it.

Modelling conventions:
* pandas string cells are Lean `String`s; a DataFrame is a list of labelled
  columns plus a row index (`DF` below).
* a column is either `object`-typed (`Col.text`) or numeric (`Col.num`); a
  numeric cell is `Option Dec` where `none` is `NaN` and `Dec` is an exact
  decimal `num / 10 ^ exp`.  Parsing with `pd.to_numeric` is exact on the
  restricted alphabet (digits, sign, dot) that the pipeline feeds it, so exact
  decimals model the float values faithfully for every quantity the pipeline
  observes (wholeness, distinctness of whole values, the parsed cells).
* Python `str` primitives (`replace`, `strip`, regexes used by the source) are
  re-implemented structurally so that the kernel can evaluate them.
* `clean_dataframe` returns `Except String DF`: pandas raises
  `AttributeError` when a label-based column lookup hits duplicated labels
  (`df[col].dtype` on a multi-column selection), which the embedding surfaces
  as `Except.error`.
-/

namespace FBICrime

/-- Python `\s` on the ASCII range (the only whitespace the pipeline meets). -/
def isPySpace (c : Char) : Bool :=
  c = ' ' || c = '\t' || c = '\n' || c = '\r' || c = '\x0b' || c = '\x0c'

/-- `pat` is a prefix of `l` (kernel-computable `startswith`). -/
def isPrefixL : List Char → List Char → Bool
  | [], _ => true
  | _ :: _, [] => false
  | p :: ps, c :: cs => p = c && isPrefixL ps cs

/-- Python `s.startswith(pat)`. -/
def strStarts (s pat : String) : Bool := isPrefixL pat.data s.data

/-- One fuel-indexed step list for Python `str.replace` (left-to-right,
non-overlapping).  The fuel is instantiated with the length of the list, which
always suffices since every step consumes at least one character. -/
def replaceFuel (pat rep : List Char) : Nat → List Char → List Char
  | _, [] => []
  | 0, l => l
  | fuel + 1, c :: cs =>
      if isPrefixL pat (c :: cs) then
        rep ++ replaceFuel pat rep fuel (cs.drop (pat.length - 1))
      else
        c :: replaceFuel pat rep fuel cs

/-- Python `s.replace(pat, rep)` (all occurrences, left to right). -/
def replaceL (s pat rep : String) : String :=
  ⟨replaceFuel pat.data rep.data s.data.length s.data⟩

/-- Prepend a single space to a list unless it already starts with one. -/
def pushSpace (r : List Char) : List Char :=
  if r.head? = some ' ' then r else ' ' :: r

/-- `re.sub(r"\s+", " ", s)` on the character list: every maximal run of
whitespace becomes a single space. -/
def collapseWS : List Char → List Char
  | [] => []
  | c :: cs =>
      if isPySpace c then pushSpace (collapseWS cs)
      else c :: collapseWS cs

/-- Remove trailing whitespace. -/
def dropTrail : List Char → List Char
  | [] => []
  | c :: cs =>
      match dropTrail cs with
      | [] => if isPySpace c then [] else [c]
      | d :: ds => c :: d :: ds

/-- Python `s.strip()` on the character list. -/
def stripChars (l : List Char) : List Char :=
  dropTrail (l.dropWhile isPySpace)

/-- Python `s.strip()`. -/
def pyStrip (s : String) : String := ⟨stripChars s.data⟩

/-- `clean_colname` from `src/app.py` lines 120-130: replace line breaks with
spaces, apply the fixed mojibake substitutions, collapse whitespace runs and
trim. -/
def clean_colname (s : String) : String :=
  let s1 := replaceL s "\n" " "
  let s2 := replaceL s1 "â\x88\x92" "-"
  let s3 := replaceL s2 "â\x88\x9215" "-15"
  let s4 := replaceL s3 "Nov-15" "11-15"
  let s5 := replaceL s4 "?" "-"
  ⟨stripChars (collapseWS s5.data)⟩

/-- An exact decimal number `num / 10 ^ exp`; the model of the float values
`pd.to_numeric` produces from the digits/sign/dot strings the pipeline feeds
it. -/
structure Dec where
  num : Int
  exp : Nat
deriving DecidableEq, Repr

/-- The rational value of a `Dec` (for spec-level statements). -/
def Dec.val (d : Dec) : Rat := (d.num : Rat) / (10 : Rat) ^ d.exp

/-- `d` is a whole number, i.e. `conv % 1 == 0` holds for it. -/
def Dec.isWhole (d : Dec) : Bool := d.num % (10 : Int) ^ d.exp == 0

/-- `conv.astype(int)` on a whole `Dec`: the integer it denotes. -/
def Dec.intVal (d : Dec) : Int := d.num / (10 : Int) ^ d.exp

/-- Split a character list at every `'.'`. -/
def splitDot : List Char → List (List Char)
  | [] => [[]]
  | '.' :: cs => [] :: splitDot cs
  | c :: cs =>
      match splitDot cs with
      | [] => [[c]]
      | p :: ps => (c :: p) :: ps

/-- The natural number denoted by a digit list. -/
def digitsToNat (l : List Char) : Nat :=
  l.foldl (fun a c => 10 * a + (c.toNat - 48)) 0

/-- `pd.to_numeric(cell, errors="coerce")` for a single cell, on the alphabet
of digits, `+`, `-`, `.` that the pipeline's stripping regexes leave behind
(Python `float` additionally accepts exponents and words like `inf`, but no
such string survives the stripping): an optional sign, then digits with at
most one dot and at least one digit.  Unparseable cells become `none`
(`NaN`). -/
def toNumeric (s : String) : Option Dec :=
  let sb : Bool × List Char :=
    match s.data with
    | '-' :: r => (true, r)
    | '+' :: r => (false, r)
    | l => (false, l)
  let neg := sb.1
  let body := sb.2
  let sign : Int → Int := fun n => if neg then -n else n
  match splitDot body with
  | [ip] =>
      if !ip.isEmpty && ip.all Char.isDigit then
        some ⟨sign (digitsToNat ip), 0⟩
      else none
  | [ip, fp] =>
      if ip.all Char.isDigit && fp.all Char.isDigit && (!ip.isEmpty || !fp.isEmpty) then
        some ⟨sign (digitsToNat (ip ++ fp)), fp.length⟩
      else none
  | _ => none

/-- A column of a table: `object`-typed cells or numeric cells.  pandas
assigns one dtype per column, so a column is entirely text or entirely
numeric; `none` in a numeric column is `NaN`. -/
inductive Col where
  | text : List String → Col
  | num : List (Option Dec) → Col
deriving DecidableEq, Repr

/-- Number of cells in a column. -/
def colHeight : Col → Nat
  | .text cells => cells.length
  | .num xs => xs.length

/-- A DataFrame: ordered labelled columns (labels may repeat) plus a row
index. -/
structure DF where
  cols : List (String × Col)
  index : List Int
deriving DecidableEq, Repr

/-- Every column has one cell per index entry (always true of a real pandas
frame). -/
def DF.wf (df : DF) : Prop := ∀ p ∈ df.cols, colHeight p.2 = df.index.length

/-- `not df.empty`: at least one row and one column. -/
def DF.notEmpty (df : DF) : Prop := df.cols ≠ [] ∧ df.index ≠ []

/-- `cell.replace(",", "")` then `.strip()`: line 152 of `src/app.py`. -/
def cleanedCell (s : String) : String := pyStrip (replaceL s "," "")

/-- Characters the match-stripping regex `[^\d\.\-]` keeps. -/
def keepNumChar (c : Char) : Bool := c.isDigit || c = '.' || c = '-'

/-- The per-cell match value (line 155): the comma-stripped, trimmed cell with
every character removed except digits, minus and dot. -/
def matchVal (s : String) : String :=
  ⟨(cleanedCell s).data.filter keepNumChar⟩

/-- `re.match(r"^-?\d+(\.\d+)?$", s)`: an optional minus, one or more digits,
optionally a dot and one or more digits. -/
def matchesNumPat (s : String) : Bool :=
  let cs : List Char :=
    match s.data with
    | '-' :: r => r
    | l => l
  let ds := cs.takeWhile Char.isDigit
  let rest := cs.drop ds.length
  !ds.isEmpty &&
    (rest.isEmpty ||
      (match rest with
       | '.' :: fs => !fs.isEmpty && fs.all Char.isDigit
       | _ => false))

/-- Line 158: the non-empty match values of a column (`non_null`). -/
def nonNullVals (cells : List String) : List String :=
  (cells.map matchVal).filter (fun s => s != "")

/-- Line 165, `numeric_match.mean()`: the fraction of non-empty match values
that fully match the numeric pattern, as an exact rational. -/
def numericFrac (cells : List String) : Rat :=
  (((nonNullVals cells).filter matchesNumPat).length : Rat) /
    ((nonNullVals cells).length : Rat)

/-- Lines 148-172 of `src/app.py`, the per-column numeric coercion: on an
object column, compute the match values, and if at least half of the
non-empty ones (or all of them) match the numeric pattern, convert the whole
column to numeric via `pd.to_numeric`; otherwise keep the original text
cells.  Non-object columns pass through untouched. -/
def coerceCol : Col → Col
  | .num xs => .num xs
  | .text cells =>
      let nonNull := nonNullVals cells
      if nonNull.isEmpty then .text cells
      else
        let nMatch := (nonNull.filter matchesNumPat).length
        if 2 * nMatch ≥ nonNull.length ∨ nMatch = nonNull.length then
          .num ((cells.map matchVal).map toNumeric)
        else .text cells

/-- Lower-case a string (ASCII, which covers the pattern's letters). -/
def lowerStr (s : String) : String := ⟨s.data.map Char.toLower⟩

/-- `re.compile(r'^(unnamed: 0|index|row|#|no\.?$|s no$|sr\.?n$|sr no$|id$)',
re.IGNORECASE).match(c.strip())` from line 178: the first four alternatives
are anchored only at the start, the rest also at the end. -/
def indexLikeMatch (c : String) : Bool :=
  let l := lowerStr (pyStrip c)
  strStarts l "unnamed: 0" || strStarts l "index" || strStarts l "row" ||
    strStarts l "#" ||
    l = "no" || l = "no." || l = "s no" || l = "sr.n" || l = "srn" ||
    l = "sr no" || l = "id"

/-- Characters the index-conversion regex `[^\d\-\+\.]` keeps (line 183). -/
def keepIdxChar (c : Char) : Bool := c.isDigit || c = '-' || c = '+' || c = '.'

/-- Line 183 applied to one text cell: strip to digits/sign/dot, then
`pd.to_numeric`. -/
def idxConvText (s : String) : Option Dec :=
  toNumeric ⟨s.data.filter keepIdxChar⟩

/-- Line 183 applied to a whole column.  For a numeric column,
`astype(str)` renders each float so that stripping and re-parsing yields the
same value (`str(x)` round-trips every float whose repr has no exponent, and
`NaN` renders as `"nan"`, which strips to `""` and parses to `NaN`). -/
def colConvs : Col → List (Option Dec)
  | .text cells => cells.map idxConvText
  | .num xs => xs

/-- The 1-based `RangeIndex(start=1, stop=n+1)` of lines 203 and 206. -/
def oneBased (n : Nat) : List Int :=
  (List.range n).map (fun i => Int.ofNat (i + 1))

/-- Lines 177-197: find the first index-like column; if every cell converts,
every converted value is whole and the integer values are as numerous as the
rows, return the adopted index together with the columns with that label
dropped; otherwise (or when no label matches) return `none`. -/
def deriveIdx (cols : List (String × Col)) (n : Nat) :
    Option (List Int × List (String × Col)) :=
  match cols.find? (fun p => indexLikeMatch p.1) with
  | none => none
  | some p =>
      let convs := colConvs p.2
      if convs.all Option.isSome then
        let vals := convs.reduceOption
        if vals.all Dec.isWhole ∧ (vals.map Dec.intVal).dedup.length = n then
          some (vals.map Dec.intVal, cols.filter (fun q => q.1 != p.1))
        else none
      else none

/-- Rename every column label with `clean_colname` (line 142). -/
def renameCols (cols : List (String × Col)) : List (String × Col) :=
  cols.map (fun p => (clean_colname p.1, p.2))

/-- Drop the columns whose cleaned label matches `^Unnamed` (line 145,
case-sensitive). -/
def dropUnnamed (cols : List (String × Col)) : List (String × Col) :=
  cols.filter (fun p => !(strStarts p.1 "Unnamed"))

/-- Apply the numeric coercion to every column (lines 148-172). -/
def coerceAll (cols : List (String × Col)) : List (String × Col) :=
  cols.map (fun p => (p.1, coerceCol p.2))

/-- The column pipeline before index handling: rename, drop unnamed,
coerce. -/
def cleanStage (df : DF) : List (String × Col) :=
  coerceAll (dropUnnamed (renameCols df.cols))

/-- The exception pandas raises when `df[col]` selects the several columns of
a duplicated label and the code then reads the `Series`-only attribute
`dtype` (line 150). -/
def pyAttributeError : String := "AttributeError"

/-- `clean_dataframe` from `src/app.py` lines 132-208.  An empty input (no
rows or no columns) gives the empty frame.  If two cleaned labels that
survive the unnamed-drop coincide, the coercion loop's `df[col].dtype` hits a
DataFrame and raises `AttributeError` (modelled as `Except.error`).
Otherwise the columns are coerced, an index-like column may be absorbed into
the row index, and the index defaults to the 1-based sequence. -/
def clean_dataframe (df : DF) : Except String DF :=
  if df.index.isEmpty || df.cols.isEmpty then .ok ⟨[], []⟩
  else
    let cols2 := dropUnnamed (renameCols df.cols)
    if (cols2.map Prod.fst).dedup.length ≠ cols2.length then
      .error pyAttributeError
    else
      let n := df.index.length
      match deriveIdx (coerceAll cols2) n with
      | some r => .ok ⟨r.2, r.1⟩
      | none => .ok ⟨coerceAll cols2, oneBased n⟩

/-- The four observable outcomes of the file reading in `load_csv` (lines
210-222): the file is absent; both the default decode and the `latin-1`
fallback fail; the default read succeeds; only the fallback read succeeds
(the decode failure was retried exactly once with `latin-1`). -/
inductive ReadResult where
  | fileMissing
  | bothFail
  | firstOk (df : DF)
  | fallbackOk (df : DF)

/-- `load_csv` from `src/app.py` lines 210-222: a missing file or a doubly
failing read yields the empty frame; a successful read (directly or via the
single fallback retry) is passed to `clean_dataframe`, outside any
`try`. -/
def load_csv : ReadResult → Except String DF
  | .fileMissing => .ok ⟨[], []⟩
  | .bothFail => .ok ⟨[], []⟩
  | .firstOk df => clean_dataframe df
  | .fallbackOk df => clean_dataframe df

end FBICrime

namespace FBICrime

/-! ## Helper lemmas -/

theorem mem_pushSpace {c : Char} {r : List Char} (h : c ∈ pushSpace r) :
    c = ' ' ∨ c ∈ r := by
  unfold pushSpace at h
  split at h
  · exact Or.inr h
  · rcases List.mem_cons.mp h with h | h
    · exact Or.inl h
    · exact Or.inr h

theorem mem_collapseWS {c : Char} : ∀ {l : List Char},
    c ∈ collapseWS l → c = ' ' ∨ c ∈ l
  | [], h => by simp [collapseWS] at h
  | a :: l, h => by
      unfold collapseWS at h
      split at h
      · rcases mem_pushSpace h with h | h
        · exact Or.inl h
        · rcases mem_collapseWS h with h | h
          · exact Or.inl h
          · exact Or.inr (List.mem_cons_of_mem _ h)
      · rcases List.mem_cons.mp h with h | h
        · exact Or.inr (h ▸ List.mem_cons_self _ _)
        · rcases mem_collapseWS h with h | h
          · exact Or.inl h
          · exact Or.inr (List.mem_cons_of_mem _ h)

theorem space_mem_collapseWS {c : Char} : ∀ {l : List Char},
    c ∈ collapseWS l → isPySpace c = true → c = ' '
  | [], h, _ => by simp [collapseWS] at h
  | a :: l, h, hs => by
      unfold collapseWS at h
      split at h
      · rcases mem_pushSpace h with h | h
        · exact h
        · exact space_mem_collapseWS h hs
      · rcases List.mem_cons.mp h with h | h
        · subst h; rename_i ha; exact absurd hs (by simp [ha])
        · exact space_mem_collapseWS h hs

/-- The relation "not two adjacent spaces". -/
def noTwoSpaces (a b : Char) : Prop := ¬(a = ' ' ∧ b = ' ')

theorem chain_pushSpace {r : List Char} (h : r.Chain' noTwoSpaces) :
    (pushSpace r).Chain' noTwoSpaces := by
  unfold pushSpace
  split
  · exact h
  · rename_i hne
    refine List.chain'_cons'.mpr ⟨?_, h⟩
    intro b hb
    intro hab
    exact hne (by rw [hb, hab.2])

theorem chain_collapseWS : ∀ (l : List Char),
    (collapseWS l).Chain' noTwoSpaces
  | [] => List.chain'_nil
  | a :: l => by
      unfold collapseWS
      split
      · exact chain_pushSpace (chain_collapseWS l)
      · rename_i ha
        refine List.chain'_cons'.mpr ⟨?_, chain_collapseWS l⟩
        intro b _ hab
        have : isPySpace a = true := by simp [hab.1, isPySpace]
        rw [this] at ha; exact absurd rfl ha

theorem mem_dropTrail {c : Char} : ∀ {l : List Char},
    c ∈ dropTrail l → c ∈ l
  | [], h => by simp [dropTrail] at h
  | a :: l, h => by
      unfold dropTrail at h
      split at h
      · split at h
        · simp at h
        · rcases List.mem_singleton.mp h with h
          exact h ▸ List.mem_cons_self _ _
      · rename_i d ds hds
        rcases List.mem_cons.mp h with h | h
        · exact h ▸ List.mem_cons_self _ _
        · exact List.mem_cons_of_mem _ (mem_dropTrail (hds ▸ h))

theorem head_dropTrail {c : Char} : ∀ {l : List Char},
    (dropTrail l).head? = some c → l.head? = some c
  | [], h => by simp [dropTrail] at h
  | a :: l, h => by
      unfold dropTrail at h
      split at h
      · split at h
        · simp at h
        · simp at h; simp [h]
      · simp at h; simp [h]

theorem getLast_dropTrail_not_space {c : Char} : ∀ {l : List Char},
    (dropTrail l).getLast? = some c → isPySpace c = false
  | [], h => by simp [dropTrail] at h
  | a :: l, h => by
      unfold dropTrail at h
      split at h
      · split at h
        · simp at h
        · rename_i ha
          simp at h
          subst h
          simpa using ha
      · rename_i d ds hds
        rw [List.getLast?_cons_cons] at h
        exact getLast_dropTrail_not_space (hds ▸ h)

theorem chain_dropTrail {R : Char → Char → Prop} : ∀ {l : List Char},
    l.Chain' R → (dropTrail l).Chain' R
  | [], _ => by simp [dropTrail]
  | a :: l, h => by
      unfold dropTrail
      split
      · split
        · exact List.chain'_nil
        · exact List.chain'_singleton _
      · rename_i d ds hds
        have htail : (dropTrail l).Chain' R := chain_dropTrail (List.chain'_cons'.mp h).2
        refine List.chain'_cons'.mpr ⟨?_, hds ▸ htail⟩
        intro b hb
        simp at hb
        have hdl : l.head? = some d := head_dropTrail (by rw [hds]; rfl)
        have := (List.chain'_cons'.mp h).1
        exact hb ▸ this d hdl

theorem mem_dropWhile {c : Char} {p : Char → Bool} : ∀ {l : List Char},
    c ∈ l.dropWhile p → c ∈ l
  | [], h => by simp [List.dropWhile] at h
  | a :: l, h => by
      rw [List.dropWhile_cons] at h
      split at h
      · exact List.mem_cons_of_mem _ (mem_dropWhile h)
      · exact h

theorem head_dropWhile_not {c : Char} {p : Char → Bool} : ∀ {l : List Char},
    (l.dropWhile p).head? = some c → p c = false
  | [], h => by simp [List.dropWhile] at h
  | a :: l, h => by
      rw [List.dropWhile_cons] at h
      split at h
      · exact head_dropWhile_not h
      · rename_i ha
        simp at h
        subst h
        simpa using ha

theorem chain_dropWhile {R : Char → Char → Prop} {p : Char → Bool} : ∀ {l : List Char},
    l.Chain' R → (l.dropWhile p).Chain' R
  | [], _ => by simp [List.dropWhile]
  | a :: l, h => by
      rw [List.dropWhile_cons]
      split
      · exact chain_dropWhile (List.chain'_cons'.mp h).2
      · exact h

theorem mem_stripChars {c : Char} {l : List Char} (h : c ∈ stripChars l) :
    c ∈ l :=
  mem_dropWhile (mem_dropTrail h)

theorem head_stripChars_not_space {c : Char} {l : List Char}
    (h : (stripChars l).head? = some c) : isPySpace c = false :=
  head_dropWhile_not (head_dropTrail h)

theorem getLast_stripChars_not_space {c : Char} {l : List Char}
    (h : (stripChars l).getLast? = some c) : isPySpace c = false :=
  getLast_dropTrail_not_space h

theorem chain_stripChars {l : List Char} (h : l.Chain' noTwoSpaces) :
    (stripChars l).Chain' noTwoSpaces :=
  chain_dropTrail (chain_dropWhile h)

theorem not_mem_replaceFuel {c : Char} {rep : List Char} (hrep : c ∉ rep) :
    ∀ (fuel : Nat) (l : List Char), l.length ≤ fuel →
      c ∉ replaceFuel [c] rep fuel l
  | 0, [], _ => by simp [replaceFuel]
  | 0, a :: l, h => by simp at h
  | fuel + 1, [], _ => by simp [replaceFuel]
  | fuel + 1, a :: l, h => by
      unfold replaceFuel
      split
      · intro hmem
        rcases List.mem_append.mp hmem with hm | hm
        · exact hrep hm
        · have : l.length ≤ fuel := by simpa using h
          exact not_mem_replaceFuel hrep fuel (l.drop 0) (by simpa using this) hm
      · rename_i hpre
        intro hmem
        rcases List.mem_cons.mp hmem with hm | hm
        · exact hpre (by simp [isPrefixL, hm])
        · exact not_mem_replaceFuel hrep fuel l (by simpa using h) hm


/-! ## Pipeline structure lemmas -/

theorem dedup_length_eq_iff {α : Type} [DecidableEq α] (l : List α) :
    l.dedup.length = l.length ↔ l.Nodup := by
  constructor
  · intro h
    have he := l.dedup_sublist.eq_of_length h
    rw [← he]
    exact l.nodup_dedup
  · intro h
    rw [h.dedup]

theorem coerceAll_labels (cols : List (String × Col)) :
    (coerceAll cols).map Prod.fst = cols.map Prod.fst := by
  unfold coerceAll
  rw [List.map_map]
  rfl

theorem coerceCol_text (cells : List String) :
    coerceCol (Col.text cells) =
      (if (nonNullVals cells).isEmpty then Col.text cells
      else
        if 2 * ((nonNullVals cells).filter matchesNumPat).length ≥
              (nonNullVals cells).length ∨
            ((nonNullVals cells).filter matchesNumPat).length =
              (nonNullVals cells).length then
          Col.num ((cells.map matchVal).map toNumeric)
        else Col.text cells) := rfl

theorem coerceCol_height (c : Col) : colHeight (coerceCol c) = colHeight c := by
  cases c with
  | num xs => rfl
  | text cells =>
      rw [coerceCol_text]
      split
      · rfl
      · split
        · simp [colHeight]
        · rfl

theorem mem_coerceAll {p : String × Col} {cols : List (String × Col)}
    (h : p ∈ coerceAll cols) : ∃ q ∈ cols, q.1 = p.1 ∧ coerceCol q.2 = p.2 := by
  unfold coerceAll at h
  rcases List.mem_map.mp h with ⟨q, hq, he⟩
  exact ⟨q, hq, by rw [← he], by rw [← he]⟩

theorem mem_dropUnnamed {p : String × Col} {cols : List (String × Col)}
    (h : p ∈ dropUnnamed cols) :
    p ∈ cols ∧ strStarts p.1 "Unnamed" = false := by
  unfold dropUnnamed at h
  have := List.mem_filter.mp h
  exact ⟨this.1, by simpa using this.2⟩

theorem mem_renameCols {p : String × Col} {cols : List (String × Col)}
    (h : p ∈ renameCols cols) :
    ∃ q ∈ cols, p = (clean_colname q.1, q.2) := by
  unfold renameCols at h
  rcases List.mem_map.mp h with ⟨q, hq, he⟩
  exact ⟨q, hq, he.symm⟩

theorem cleanStage_not_unnamed {df : DF} {p : String × Col}
    (h : p ∈ cleanStage df) : strStarts p.1 "Unnamed" = false := by
  unfold cleanStage at h
  rcases mem_coerceAll h with ⟨q, hq, hlbl, _⟩
  exact hlbl ▸ (mem_dropUnnamed hq).2

theorem cleanStage_height {df : DF} (hwf : df.wf) {p : String × Col}
    (h : p ∈ cleanStage df) : colHeight p.2 = df.index.length := by
  unfold cleanStage at h
  rcases mem_coerceAll h with ⟨q, hq, _, hcoe⟩
  rcases mem_renameCols (mem_dropUnnamed hq).1 with ⟨r, hr, he⟩
  rw [← hcoe, coerceCol_height, he]
  exact hwf r hr

theorem colConvs_length (c : Col) : (colConvs c).length = colHeight c := by
  cases c with
  | num xs => rfl
  | text cells => simp [colConvs, colHeight]

theorem reduceOption_length_of_all {l : List (Option Dec)}
    (h : l.all Option.isSome = true) : l.reduceOption.length = l.length :=
  List.reduceOption_length_eq_iff.mpr (by simpa using List.all_eq_true.mp h)

/-- Inversion for a successful index derivation. -/
theorem deriveIdx_some {cols : List (String × Col)} {n : Nat}
    {vals : List Int} {cols' : List (String × Col)}
    (h : deriveIdx cols n = some (vals, cols')) :
    ∃ p, cols.find? (fun q => indexLikeMatch q.1) = some p ∧
      (colConvs p.2).all Option.isSome = true ∧
      (colConvs p.2).reduceOption.all Dec.isWhole = true ∧
      (((colConvs p.2).reduceOption.map Dec.intVal).dedup.length = n) ∧
      vals = (colConvs p.2).reduceOption.map Dec.intVal ∧
      cols' = cols.filter (fun q => q.1 != p.1) := by
  unfold deriveIdx at h
  split at h
  · exact absurd h (by simp)
  · rename_i p hfind
    dsimp only at h
    split at h
    · rename_i hsome
      split at h
      · rename_i hcond
        simp only [Option.some.injEq, Prod.mk.injEq] at h
        exact ⟨p, hfind, hsome, hcond.1, hcond.2, h.1.symm, h.2.symm⟩
      · exact absurd h (by simp)
    · exact absurd h (by simp)

/-- Inversion for a failed index derivation when a candidate column exists. -/
theorem deriveIdx_none_of_found {cols : List (String × Col)} {n : Nat}
    {p : String × Col}
    (hfind : cols.find? (fun q => indexLikeMatch q.1) = some p)
    (h : deriveIdx cols n = none) :
    ¬((colConvs p.2).all Option.isSome = true ∧
      (colConvs p.2).reduceOption.all Dec.isWhole = true ∧
      (((colConvs p.2).reduceOption.map Dec.intVal).dedup.length = n)) := by
  intro hc
  unfold deriveIdx at h
  rw [hfind] at h
  dsimp only at h
  rw [if_pos hc.1] at h
  rw [if_pos ⟨hc.2.1, hc.2.2⟩] at h
  exact Option.noConfusion h

/-- Build a successful derivation from the conditions. -/
theorem deriveIdx_some_of_cond {cols : List (String × Col)} {n : Nat}
    {p : String × Col}
    (hfind : cols.find? (fun q => indexLikeMatch q.1) = some p)
    (hsome : (colConvs p.2).all Option.isSome = true)
    (hwhole : (colConvs p.2).reduceOption.all Dec.isWhole = true)
    (hdedup : ((colConvs p.2).reduceOption.map Dec.intVal).dedup.length = n) :
    deriveIdx cols n =
      some ((colConvs p.2).reduceOption.map Dec.intVal,
        cols.filter (fun q => q.1 != p.1)) := by
  unfold deriveIdx
  rw [hfind]
  dsimp only
  rw [if_pos hsome, if_pos ⟨hwhole, hdedup⟩]

/-- `clean_dataframe` on a nonempty frame with distinct surviving labels. -/
theorem clean_dataframe_ok {df : DF} (hne : df.notEmpty)
    (hnodup : ((dropUnnamed (renameCols df.cols)).map Prod.fst).Nodup) :
    clean_dataframe df =
      match deriveIdx (cleanStage df) df.index.length with
      | some r => .ok ⟨r.2, r.1⟩
      | none => .ok ⟨cleanStage df, oneBased df.index.length⟩ := by
  unfold clean_dataframe
  rw [if_neg]
  · rw [if_neg]
    · rfl
    · rw [hnodup.dedup]
      simp
  · simp only [Bool.or_eq_true, List.isEmpty_iff]
    rintro (h | h)
    · exact hne.2 h
    · exact hne.1 h

/-- `clean_dataframe` raises when two surviving cleaned labels coincide. -/
theorem clean_dataframe_dup {df : DF} (hne : df.notEmpty)
    (hdup : ¬((dropUnnamed (renameCols df.cols)).map Prod.fst).Nodup) :
    clean_dataframe df = .error pyAttributeError := by
  unfold clean_dataframe
  rw [if_neg]
  · rw [if_pos]
    intro h
    apply hdup
    apply (dedup_length_eq_iff _).mp
    rw [h, List.length_map]
  · simp only [Bool.or_eq_true, List.isEmpty_iff]
    rintro (h | h)
    · exact hne.2 h
    · exact hne.1 h

theorem oneBased_length (n : Nat) : (oneBased n).length = n := by
  unfold oneBased
  rw [List.length_map, List.length_range]

theorem coerceCol_idem (c : Col) : coerceCol (coerceCol c) = coerceCol c := by
  cases c with
  | num xs => rfl
  | text cells =>
      rw [coerceCol_text]
      split
      · rename_i h1
        rw [coerceCol_text, if_pos h1]
      · split
        · rfl
        · rename_i h1 h2
          rw [coerceCol_text, if_neg h1, if_neg h2]

theorem coerceAll_idem (cols : List (String × Col)) :
    coerceAll (coerceAll cols) = coerceAll cols := by
  unfold coerceAll
  rw [List.map_map]
  apply List.map_congr_left
  intro p _
  show (p.1, coerceCol (coerceCol p.2)) = (p.1, coerceCol p.2)
  rw [coerceCol_idem]

/-! ## Claim theorems -/

/-- C7: header cleaning turns internal line breaks into spaces, applies the
fixed literal substitutions (the mis-decoded dash artifact to `-`, `Nov-15`
to `11-15`, `?` to `-`), collapses whitespace runs and trims: in particular
`"Victims\nAge"` becomes `"Victims Age"` and `"Nov-15"` becomes `"11-15"`;
moreover every output label has no line break, no question mark, no two
adjacent whitespace characters, and no leading or trailing whitespace. -/
theorem C7_header_cleaning :
    clean_colname "Victims\nAge" = "Victims Age" ∧
    clean_colname "Nov-15" = "11-15" ∧
    clean_colname "a â\x88\x92 b" = "a - b" ∧
    clean_colname " x?y " = "x-y" ∧
    ∀ s : String,
      (∀ c ∈ (clean_colname s).data, isPySpace c = true → c = ' ') ∧
      '\n' ∉ (clean_colname s).data ∧
      '?' ∉ (clean_colname s).data ∧
      (clean_colname s).data.Chain' noTwoSpaces ∧
      (∀ c, (clean_colname s).data.head? = some c → isPySpace c = false) ∧
      (∀ c, (clean_colname s).data.getLast? = some c → isPySpace c = false) := by
  refine ⟨rfl, rfl, rfl, rfl, ?_⟩
  intro s
  have hdata : (clean_colname s).data =
      stripChars (collapseWS
        (replaceL (replaceL (replaceL (replaceL (replaceL s "\n" " ")
          "â\x88\x92" "-") "â\x88\x9215" "-15") "Nov-15" "11-15") "?" "-").data) := rfl
  rw [hdata]
  refine ⟨?_, ?_, ?_, ?_, ?_, ?_⟩
  · intro c hc hs
    exact space_mem_collapseWS (mem_stripChars hc) hs
  · intro hmem
    have := space_mem_collapseWS (mem_stripChars hmem) (by decide)
    exact absurd this (by decide)
  · intro hmem
    rcases mem_collapseWS (mem_stripChars hmem) with h | h
    · exact absurd h (by decide)
    · exact not_mem_replaceFuel (c := '?') (by decide) _ _ (le_refl _) h
  · exact chain_stripChars (chain_collapseWS _)
  · intro c hc
    exact head_stripChars_not_space hc
  · intro c hc
    exact getLast_stripChars_not_space hc

/-- C7 witness: the general clauses of `C7_header_cleaning` evaluated at
concrete headers. -/
theorem C7_header_cleaning_witness :
    '?' ∉ (clean_colname "A?B").data ∧
    isPySpace 'V' = false :=
  ⟨(C7_header_cleaning.2.2.2.2 "A?B").2.2.1,
   (C7_header_cleaning.2.2.2.2 "Victims\nAge").2.2.2.2.1 'V' rfl⟩

/-- C5 counterexample: the claim says the column
`["Alabama", "Alaska", "1"]` stays text-typed, but `clean_dataframe`'s
statistic ignores the empty match values of `"Alabama"` and `"Alaska"`, so
the only counted match value is `"1"`, the ratio is `1.0`, and the column is
coerced to numeric `[null, null, 1.0]`. -/
theorem C5_counterexample :
    coerceCol (Col.text ["Alabama", "Alaska", "1"]) =
      Col.num [none, none, some ⟨1, 0⟩] ∧
    Col.num [none, none, some (⟨1, 0⟩ : Dec)] ≠
      Col.text ["Alabama", "Alaska", "1"] :=
  ⟨rfl, by decide⟩

/-- C5 (amended): the match values of `["Alabama", "Alaska", "1"]` are
`["", "", "1"]`, the fraction is computed over the single non-empty stripped
value, so the column is coerced to numeric `[null, null, 1.0]`; the column
`["1", "2", "x1"]`, whose match values are `["1", "2", "1"]`, has fraction
`1.0` and is coerced to `[1.0, 2.0, 1.0]` (the ratio is computed on the
stripped match values, not the raw cells). -/
theorem C5_amended :
    ["Alabama", "Alaska", "1"].map matchVal = ["", "", "1"] ∧
    coerceCol (Col.text ["Alabama", "Alaska", "1"]) =
      Col.num [none, none, some ⟨1, 0⟩] ∧
    ["1", "2", "x1"].map matchVal = ["1", "2", "1"] ∧
    coerceCol (Col.text ["1", "2", "x1"]) =
      Col.num [some ⟨1, 0⟩, some ⟨2, 0⟩, some ⟨1, 0⟩] :=
  ⟨rfl, rfl, rfl, rfl⟩


theorem deriveIdx_snd_sub {cols : List (String × Col)} {n : Nat}
    {r : List Int × List (String × Col)} (h : deriveIdx cols n = some r) :
    ∀ p ∈ r.2, p ∈ cols := by
  obtain ⟨vals, cols'⟩ := r
  obtain ⟨q, _, _, _, _, _, hcols⟩ := deriveIdx_some h
  intro p hp
  rw [hcols] at hp
  exact (List.mem_filter.mp hp).1

theorem mem_cols_of_ok {df out : DF} (hok : clean_dataframe df = .ok out) :
    ∀ p ∈ out.cols, p ∈ cleanStage df := by
  intro p hp
  unfold clean_dataframe at hok
  split at hok
  · simp only [Except.ok.injEq] at hok
    rw [← hok] at hp
    simp at hp
  · dsimp only at hok
    split at hok
    · exact absurd hok (by simp)
    · split at hok
      · rename_i r hderive
        simp only [Except.ok.injEq] at hok
        rw [← hok] at hp
        exact deriveIdx_snd_sub hderive p hp
      · simp only [Except.ok.injEq] at hok
        rw [← hok] at hp
        exact hp

theorem half_le_frac_iff {m t : Nat} (ht : 0 < t) :
    (1 / 2 : Rat) ≤ (m : Rat) / (t : Rat) ↔ 2 * m ≥ t := by
  rw [div_le_div_iff₀ (by norm_num) (by exact_mod_cast ht)]
  have h2 : ((2 * m : Nat) : Rat) = (m : Rat) * 2 := by push_cast; ring
  rw [one_mul, ← h2, ge_iff_le]
  exact_mod_cast Iff.rfl

/-- C9: no column of a `CleanTable` produced by the normalizer has a label
that still starts with the unnamed-placeholder prefix `"Unnamed"`: every
column whose cleaned label begins with that prefix is dropped. -/
theorem C9_no_unnamed_labels (df : DF) (out : DF)
    (hok : clean_dataframe df = Except.ok out) :
    ∀ p ∈ out.cols, strStarts p.1 "Unnamed" = false := by
  intro p hp
  exact cleanStage_not_unnamed (mem_cols_of_ok hok p hp)

/-- C9 witness: a frame with an `"Unnamed: 3"` column; in the output the
surviving column's label does not start with `"Unnamed"`. -/
theorem C9_no_unnamed_labels_witness :
    strStarts "A" "Unnamed" = false :=
  C9_no_unnamed_labels
    ⟨[("Unnamed: 3", Col.text ["1"]), ("A", Col.text ["2"])], [0]⟩
    ⟨[("A", Col.num [some ⟨2, 0⟩])], [1]⟩ rfl
    ("A", Col.num [some ⟨2, 0⟩]) (by decide)

/-- C4: for every non-empty `RawTable`, the `CleanTable` the normalizer
returns has exactly as many rows as the input: the row index and every
column have the input's row count (the pipeline only drops columns and
nullifies cells, never rows). -/
theorem C4_rows_preserved (df : DF) (hwf : df.wf) (hne : df.notEmpty)
    (out : DF) (hok : clean_dataframe df = Except.ok out) :
    out.index.length = df.index.length ∧
    ∀ p ∈ out.cols, colHeight p.2 = df.index.length := by
  refine ⟨?_, fun p hp => cleanStage_height hwf (mem_cols_of_ok hok p hp)⟩
  by_cases hnodup : ((dropUnnamed (renameCols df.cols)).map Prod.fst).Nodup
  · rw [clean_dataframe_ok hne hnodup] at hok
    split at hok
    · rename_i r hderive
      simp only [Except.ok.injEq] at hok
      rw [← hok]
      obtain ⟨vals, cols'⟩ := r
      obtain ⟨q, hfind, hsome, _, _, hvals, _⟩ := deriveIdx_some hderive
      show vals.length = df.index.length
      rw [hvals, List.length_map, reduceOption_length_of_all hsome,
        colConvs_length]
      exact cleanStage_height hwf (List.mem_of_find?_eq_some hfind)
    · simp only [Except.ok.injEq] at hok
      rw [← hok]
      show (oneBased df.index.length).length = df.index.length
      unfold oneBased
      rw [List.length_map, List.length_range]
  · rw [clean_dataframe_dup hne hnodup] at hok
    exact absurd hok (by simp)

/-- C4 witness: a two-row frame keeps its two rows. -/
theorem C4_rows_preserved_witness :
    (DF.mk [("A", Col.num [none, some ⟨2, 0⟩])] [1, 2]).index.length =
      (DF.mk [("A", Col.text ["x", "2"])] [0, 1]).index.length :=
  (C4_rows_preserved ⟨[("A", Col.text ["x", "2"])], [0, 1]⟩
    (by unfold DF.wf; decide) (by unfold DF.notEmpty; decide)
    ⟨[("A", Col.num [none, some ⟨2, 0⟩])], [1, 2]⟩ rfl).1

/-- C1: for every text column with at least one non-empty match value, the
match values contain only digits, minus and dot; the column is converted to
nullable numeric (each cell `pd.to_numeric` of its match value, `none` when
unparseable) when the fraction of non-empty match values fully matching
`-?digits(.digits)?` is at least `1/2` or all of them match, and stays text
otherwise; every output column of the normalizer is entirely numeric or
entirely text; and the column `["1,234", "5,678", ""]` becomes
`[1234.0, 5678.0, null]`. -/
theorem C1_numeric_coercion :
    (∀ cells : List String, nonNullVals cells ≠ [] →
      (∀ s ∈ cells.map matchVal, ∀ c ∈ s.data,
        c.isDigit = true ∨ c = '-' ∨ c = '.') ∧
      (((1 / 2 : Rat) ≤ numericFrac cells ∨
          ∀ s ∈ nonNullVals cells, matchesNumPat s = true) →
        coerceCol (Col.text cells) =
          Col.num ((cells.map matchVal).map toNumeric)) ∧
      ((¬(1 / 2 : Rat) ≤ numericFrac cells ∧
          ¬∀ s ∈ nonNullVals cells, matchesNumPat s = true) →
        coerceCol (Col.text cells) = Col.text cells)) ∧
    (∀ df out, clean_dataframe df = Except.ok out →
      ∀ p ∈ out.cols, (∃ t, p.2 = Col.text t) ∨ (∃ xs, p.2 = Col.num xs)) ∧
    coerceCol (Col.text ["1,234", "5,678", ""]) =
      Col.num [some ⟨1234, 0⟩, some ⟨5678, 0⟩, none] := by
  refine ⟨?_, ?_, rfl⟩
  · intro cells hne
    have hlen : 0 < (nonNullVals cells).length := List.length_pos.mpr hne
    have hemp : ¬((nonNullVals cells).isEmpty = true) := by
      simpa [List.isEmpty_iff] using hne
    have hhalf : (1 / 2 : Rat) ≤ numericFrac cells ↔
        2 * ((nonNullVals cells).filter matchesNumPat).length ≥
          (nonNullVals cells).length := half_le_frac_iff hlen
    have hall : ((nonNullVals cells).filter matchesNumPat).length =
        (nonNullVals cells).length ↔
        ∀ s ∈ nonNullVals cells, matchesNumPat s = true :=
      List.filter_length_eq_length
    refine ⟨?_, ?_, ?_⟩
    · intro s hs c hc
      rcases List.mem_map.mp hs with ⟨x, _, hx⟩
      rw [← hx] at hc
      have h3 := (List.mem_filter.mp hc).2
      simp only [keepNumChar, Bool.or_eq_true, decide_eq_true_eq] at h3
      rcases h3 with (h3 | h3) | h3
      · exact Or.inl h3
      · exact Or.inr (Or.inr h3)
      · exact Or.inr (Or.inl h3)
    · intro hcond
      rw [coerceCol_text, if_neg hemp, if_pos]
      rcases hcond with hcond | hcond
      · exact Or.inl (hhalf.mp hcond)
      · exact Or.inr (hall.mpr hcond)
    · intro hcond
      rw [coerceCol_text, if_neg hemp, if_neg]
      rintro (hc | hc)
      · exact hcond.1 (hhalf.mpr hc)
      · exact hcond.2 (hall.mp hc)
  · intro df out _ p _
    cases h2 : p.2 with
    | text t => exact Or.inl ⟨t, rfl⟩
    | num xs => exact Or.inr ⟨xs, rfl⟩

/-- C1 witness: the coercion clause applied to the scenario column
`["1,234", "5,678", ""]`, whose non-empty match values all match. -/
theorem C1_numeric_coercion_witness :
    coerceCol (Col.text ["1,234", "5,678", ""]) =
      Col.num ((["1,234", "5,678", ""].map matchVal).map toNumeric) :=
  (C1_numeric_coercion.1 ["1,234", "5,678", ""] (by decide)).2.1
    (Or.inr (by decide))


/-- C2: row-index assignment is all-or-nothing.  The candidate is the first
column, left to right, whose cleaned trimmed label matches the
case-insensitive index-like pattern.  If every cell converts, every converted
value is a whole number and the integers are pairwise distinct, the integers
in original row order become the row index and that label's column is
dropped; if any condition fails, or no label matches, the index is exactly
the 1-based sequence `1 .. row_count`. -/
theorem C2_row_index (df : DF) (hwf : df.wf) (hne : df.notEmpty) (out : DF)
    (hok : clean_dataframe df = Except.ok out) :
    (∀ p, (cleanStage df).find? (fun q => indexLikeMatch q.1) = some p →
      (((∀ x ∈ colConvs p.2, x.isSome = true) ∧
          (∀ d ∈ (colConvs p.2).reduceOption, d.isWhole = true) ∧
          ((colConvs p.2).reduceOption.map Dec.intVal).Nodup) →
        out.index = (colConvs p.2).reduceOption.map Dec.intVal ∧
        ∀ r ∈ out.cols, r.1 ≠ p.1) ∧
      (¬((∀ x ∈ colConvs p.2, x.isSome = true) ∧
          (∀ d ∈ (colConvs p.2).reduceOption, d.isWhole = true) ∧
          ((colConvs p.2).reduceOption.map Dec.intVal).Nodup) →
        out.index = oneBased df.index.length)) ∧
    ((cleanStage df).find? (fun q => indexLikeMatch q.1) = none →
      out.index = oneBased df.index.length) := by
  by_cases hnodup : ((dropUnnamed (renameCols df.cols)).map Prod.fst).Nodup
  swap
  · rw [clean_dataframe_dup hne hnodup] at hok
    exact absurd hok (by simp)
  rw [clean_dataframe_ok hne hnodup] at hok
  constructor
  · intro p hfind
    have hmem : p ∈ cleanStage df := List.mem_of_find?_eq_some hfind
    have hh : colHeight p.2 = df.index.length := cleanStage_height hwf hmem
    constructor
    · rintro ⟨hsome, hwhole, hnod⟩
      have hsome' : (colConvs p.2).all Option.isSome = true :=
        List.all_eq_true.mpr hsome
      have hlen : ((colConvs p.2).reduceOption.map Dec.intVal).length =
          df.index.length := by
        rw [List.length_map, reduceOption_length_of_all hsome',
          colConvs_length, hh]
      have hded : ((colConvs p.2).reduceOption.map Dec.intVal).dedup.length =
          df.index.length := by
        rw [← hlen]
        exact (dedup_length_eq_iff _).mpr hnod
      have hder := deriveIdx_some_of_cond hfind hsome'
        (List.all_eq_true.mpr hwhole) hded
      rw [hder] at hok
      simp only [Except.ok.injEq] at hok
      rw [← hok]
      refine ⟨rfl, ?_⟩
      intro r hr
      have := (List.mem_filter.mp hr).2
      simpa using this
    · intro hfail
      cases hder : deriveIdx (cleanStage df) df.index.length with
      | some r =>
          exfalso
          obtain ⟨vals, cols'⟩ := r
          obtain ⟨q, hfind2, hsome2, hwhole2, hded2, _, _⟩ :=
            deriveIdx_some hder
          rw [hfind] at hfind2
          injection hfind2 with hpq
          rw [← hpq] at hsome2 hwhole2 hded2
          apply hfail
          refine ⟨fun x hx => List.all_eq_true.mp hsome2 x hx,
            fun d hd => List.all_eq_true.mp hwhole2 d hd, ?_⟩
          apply (dedup_length_eq_iff _).mp
          rw [hded2, List.length_map, reduceOption_length_of_all hsome2,
            colConvs_length, hh]
      | none =>
          rw [hder] at hok
          dsimp only at hok
          simp only [Except.ok.injEq] at hok
          rw [← hok]
  · intro hnone
    have hder : deriveIdx (cleanStage df) df.index.length = none := by
      unfold deriveIdx
      rw [hnone]
    rw [hder] at hok
    dsimp only at hok
    simp only [Except.ok.injEq] at hok
    rw [← hok]

/-- C2 witness: a table whose `"id"` column holds the distinct, unsorted
whole numbers `[3, 1, 2]`; the derived index is `[3, 1, 2]` in original row
order and the `"id"` column is gone. -/
theorem C2_row_index_witness :
    (DF.mk [("City", Col.text ["NY", "LA", "SF"])] [3, 1, 2]).index =
      (colConvs (Col.num [some ⟨3, 0⟩, some ⟨1, 0⟩,
        some ⟨2, 0⟩])).reduceOption.map Dec.intVal ∧
    ∀ r ∈ (DF.mk [("City", Col.text ["NY", "LA", "SF"])] [3, 1, 2]).cols,
      r.1 ≠ "id" :=
  ((C2_row_index
      ⟨[("id", Col.text ["3", "1", "2"]), ("City", Col.text ["NY", "LA", "SF"])],
        [0, 1, 2]⟩
      (by unfold DF.wf; decide) (by unfold DF.notEmpty; decide)
      ⟨[("City", Col.text ["NY", "LA", "SF"])], [3, 1, 2]⟩ rfl).1
    ("id", Col.num [some ⟨3, 0⟩, some ⟨1, 0⟩, some ⟨2, 0⟩]) (by decide)).1
    (by refine ⟨?_, ?_, ?_⟩ <;> decide)


/-- C3 counterexample: the claim says the normalizer never raises, but for a
table whose headers `"A?B"` and `"A-B"` both clean to `"A-B"`, the coercion
loop's label lookup `df[col]` selects two columns and reading `.dtype` raises
`AttributeError`; `load_csv` calls `clean_dataframe` outside its `try`, so
the error escapes instead of an empty CleanTable being returned. -/
theorem C3_counterexample :
    load_csv (ReadResult.firstOk
        ⟨[("A?B", Col.text ["1"]), ("A-B", Col.text ["2"])], [0]⟩) =
      Except.error pyAttributeError ∧
    clean_dataframe ⟨[("A?B", Col.text ["1"]), ("A-B", Col.text ["2"])], [0]⟩ =
      Except.error pyAttributeError :=
  ⟨rfl, rfl⟩

/-- C3 (amended): a missing or doubly unreadable raw source yields the empty
CleanTable, the byte-level decoding failure is retried exactly once with the
fallback encoding (a fallback-decoded table goes through the same cleaning),
and the normalizer returns a CleanTable without raising for every table whose
cleaned labels surviving the unnamed-drop are pairwise distinct; only
duplicate surviving labels make it raise. -/
theorem C3_no_raise (df : DF)
    (hnodup : ((dropUnnamed (renameCols df.cols)).map Prod.fst).Nodup) :
    load_csv ReadResult.fileMissing = Except.ok ⟨[], []⟩ ∧
    load_csv ReadResult.bothFail = Except.ok ⟨[], []⟩ ∧
    (∃ out, load_csv (ReadResult.firstOk df) = Except.ok out) ∧
    (∃ out, load_csv (ReadResult.fallbackOk df) = Except.ok out) := by
  refine ⟨rfl, rfl, ?_⟩
  have h : ∃ out, clean_dataframe df = Except.ok out := by
    by_cases hemp : (df.index.isEmpty || df.cols.isEmpty) = true
    · refine ⟨⟨[], []⟩, ?_⟩
      unfold clean_dataframe
      rw [if_pos hemp]
    · have hne : df.notEmpty := by
        constructor
        · intro h0
          exact hemp (by rw [h0]; simp)
        · intro h0
          exact hemp (by rw [h0]; simp)
      rw [clean_dataframe_ok hne hnodup]
      cases hder : deriveIdx (cleanStage df) df.index.length with
      | some r => exact ⟨⟨r.2, r.1⟩, rfl⟩
      | none => exact ⟨⟨cleanStage df, oneBased df.index.length⟩, rfl⟩
  obtain ⟨out, hout⟩ := h
  exact ⟨⟨out, hout⟩, ⟨out, hout⟩⟩

/-- C3 witness: a well-labelled one-column table loads without an error. -/
theorem C3_no_raise_witness :
    ∃ out, load_csv (ReadResult.firstOk ⟨[("A", Col.text ["1"])], [0]⟩) =
      Except.ok out :=
  (C3_no_raise ⟨[("A", Col.text ["1"])], [0]⟩ (by decide)).2.2.1

/-- C8 counterexample: the claim says a table with two raw columns cleaning
to the same label still completes numeric coercion and index assignment, but
`clean_dataframe` raises `AttributeError` on it — after unnamed-removal both
duplicate columns are still present (not merged), and then the coercion
loop's `df[col].dtype` hits the two-column selection. -/
theorem C8_counterexample :
    clean_dataframe ⟨[("X?Y", Col.text ["1"]), ("X-Y", Col.text ["2"])], [0]⟩ =
      Except.error pyAttributeError ∧
    (dropUnnamed (renameCols
        [("X?Y", Col.text ["1"]), ("X-Y", Col.text ["2"])])).map Prod.fst =
      ["X-Y", "X-Y"] :=
  ⟨rfl, rfl⟩

/-- C8 (amended): duplicate-labelled columns are never merged — header
cleaning keeps one output column per input column and unnamed-removal keeps
every duplicate occurrence — but the pipeline does not complete on such a
table: as soon as two surviving cleaned labels coincide, the numeric
coercion loop raises `AttributeError` and no CleanTable is produced. -/
theorem C8_duplicate_labels (df : DF) (hne : df.notEmpty)
    (hdup : ¬((dropUnnamed (renameCols df.cols)).map Prod.fst).Nodup) :
    clean_dataframe df = Except.error pyAttributeError ∧
    (renameCols df.cols).length = df.cols.length := by
  refine ⟨clean_dataframe_dup hne hdup, ?_⟩
  unfold renameCols
  rw [List.length_map]

/-- C8 witness: two columns whose labels clean to `"B-C"`. -/
theorem C8_duplicate_labels_witness :
    clean_dataframe ⟨[("B?C", Col.text ["1"]), ("B-C", Col.text ["2"])], [0]⟩ =
      Except.error pyAttributeError :=
  (C8_duplicate_labels
    ⟨[("B?C", Col.text ["1"]), ("B-C", Col.text ["2"])], [0]⟩
    (by unfold DF.notEmpty; decide) (by decide)).1

/-- C10: unnamed-column removal matches `"Unnamed"` case-sensitively and runs
before index detection, so a column whose cleaned label is exactly
`"Unnamed: 0"` never reaches the index-like search even though the
case-insensitive pattern accepts that label; the `"unnamed: 0"` alternative
is reachable exactly for casings that differ from the removal prefix, such
as the all-lowercase `"unnamed: 0"`, which is adopted as the row index. -/
theorem C10_unnamed_index :
    (∀ df : DF, ∀ p, (cleanStage df).find? (fun q => indexLikeMatch q.1) = some p →
      p.1 ≠ "Unnamed: 0") ∧
    indexLikeMatch "Unnamed: 0" = true ∧
    strStarts "Unnamed: 0" "Unnamed" = true ∧
    indexLikeMatch "unnamed: 0" = true ∧
    strStarts "unnamed: 0" "Unnamed" = false ∧
    clean_dataframe
        ⟨[("unnamed: 0", Col.text ["5", "7"]), ("B", Col.text ["x", "y"])],
          [0, 1]⟩ =
      Except.ok ⟨[("B", Col.text ["x", "y"])], [5, 7]⟩ := by
  refine ⟨?_, rfl, rfl, rfl, rfl, rfl⟩
  intro df p hfind hlbl
  have hmem := List.mem_of_find?_eq_some hfind
  have hnu := cleanStage_not_unnamed hmem
  rw [hlbl] at hnu
  exact absurd hnu (by decide)

/-- C10 witness: the general clause applied to a frame whose index-like
column is labelled `"id"`. -/
theorem C10_unnamed_index_witness :
    ("id", Col.num [some (⟨4, 0⟩ : Dec)]).1 ≠ "Unnamed: 0" :=
  C10_unnamed_index.1 ⟨[("id", Col.text ["4"])], [0]⟩
    ("id", Col.num [some ⟨4, 0⟩]) (by decide)

/-- C6 counterexample: normalization is not idempotent when the first pass
derived the row index: the first pass turns the `"id"` column `[3, 1, 2]`
into the row index and drops it, and the second pass resets the index
(`reset_index(drop=True)`), finds no index-like column, and installs the
1-based default `[1, 2, 3]` — a different table. -/
theorem C6_counterexample :
    clean_dataframe
        ⟨[("id", Col.text ["3", "1", "2"]), ("name", Col.text ["a", "b", "c"])],
          [0, 1, 2]⟩ =
      Except.ok ⟨[("name", Col.text ["a", "b", "c"])], [3, 1, 2]⟩ ∧
    clean_dataframe ⟨[("name", Col.text ["a", "b", "c"])], [3, 1, 2]⟩ =
      Except.ok ⟨[("name", Col.text ["a", "b", "c"])], [1, 2, 3]⟩ ∧
    DF.mk [("name", Col.text ["a", "b", "c"])] [1, 2, 3] ≠
      DF.mk [("name", Col.text ["a", "b", "c"])] [3, 1, 2] :=
  ⟨rfl, rfl, by decide⟩

/-- C6 (amended): re-normalizing a CleanTable the normalizer produced yields
the identical table, provided the first pass did not derive the row index
from an index-like column (a derived index is destroyed by the second
pass's index reset), at least one column survived, and every surviving label
is a fixed point of a further header cleaning. -/
theorem C6_idempotent_no_derived_index (df out : DF)
    (hok : clean_dataframe df = Except.ok out)
    (hder : deriveIdx (cleanStage df) df.index.length = none)
    (hcols : out.cols ≠ [])
    (hfix : ∀ p ∈ out.cols, clean_colname p.1 = p.1) :
    clean_dataframe out = Except.ok out := by
  by_cases hemp : (df.index.isEmpty || df.cols.isEmpty) = true
  · unfold clean_dataframe at hok
    rw [if_pos hemp] at hok
    simp only [Except.ok.injEq] at hok
    rw [← hok] at hcols
    exact absurd rfl hcols
  have hne : df.notEmpty := by
    constructor
    · intro h0
      exact hemp (by rw [h0]; simp)
    · intro h0
      exact hemp (by rw [h0]; simp)
  by_cases hnodup : ((dropUnnamed (renameCols df.cols)).map Prod.fst).Nodup
  swap
  · rw [clean_dataframe_dup hne hnodup] at hok
    exact absurd hok (by simp)
  rw [clean_dataframe_ok hne hnodup] at hok
  rw [hder] at hok
  dsimp only at hok
  simp only [Except.ok.injEq] at hok
  subst hok
  dsimp only at hcols hfix
  have hn0 : df.index.length ≠ 0 := fun h0 =>
    hne.2 (List.length_eq_zero.mp h0)
  have hren : renameCols (cleanStage df) = cleanStage df := by
    unfold renameCols
    have hpt : ∀ p ∈ cleanStage df,
        (fun p : String × Col => (clean_colname p.1, p.2)) p = id p := by
      intro p hp
      show (clean_colname p.1, p.2) = p
      rw [hfix p hp]
    rw [List.map_congr_left hpt, List.map_id]
  have hdropU : dropUnnamed (cleanStage df) = cleanStage df := by
    unfold dropUnnamed
    apply List.filter_eq_self.mpr
    intro p hp
    rw [cleanStage_not_unnamed hp]
    rfl
  have hco : coerceAll (cleanStage df) = cleanStage df := by
    unfold cleanStage
    exact coerceAll_idem _
  have hstage : cleanStage (DF.mk (cleanStage df)
      (oneBased df.index.length)) = cleanStage df := by
    show coerceAll (dropUnnamed (renameCols (cleanStage df))) = cleanStage df
    rw [hren, hdropU, hco]
  have hne2 : (DF.mk (cleanStage df) (oneBased df.index.length)).notEmpty := by
    constructor
    · exact hcols
    · intro h0
      have hl := congrArg List.length h0
      rw [oneBased_length] at hl
      simp at hl
      exact hne.2 hl
  have hnodup2 : ((dropUnnamed (renameCols
      (DF.mk (cleanStage df) (oneBased df.index.length)).cols)).map
        Prod.fst).Nodup := by
    show ((dropUnnamed (renameCols (cleanStage df))).map Prod.fst).Nodup
    rw [hren, hdropU]
    rw [show cleanStage df =
      coerceAll (dropUnnamed (renameCols df.cols)) from rfl]
    rw [coerceAll_labels]
    exact hnodup
  rw [clean_dataframe_ok hne2 hnodup2]
  rw [hstage]
  dsimp only
  rw [oneBased_length, hder]

/-- C6 witness: a one-column table with no index-like column and stable
labels is a fixed point of the normalizer. -/
theorem C6_idempotent_witness :
    clean_dataframe ⟨[("name", Col.text ["a", "b"])], [1, 2]⟩ =
      Except.ok ⟨[("name", Col.text ["a", "b"])], [1, 2]⟩ :=
  C6_idempotent_no_derived_index ⟨[("name", Col.text ["a", "b"])], [0, 1]⟩
    ⟨[("name", Col.text ["a", "b"])], [1, 2]⟩ rfl (by decide) (by decide)
    (by decide)

end FBICrime
